import Mathlib

/-!
Verification of the weekly meal suggestions pipeline
(`weekly_meal_plan_llm_v2.py`).

The Python program is a linear pipeline: load recipe URLs from a text
file, filter out dessert links, deduplicate, fetch page titles, call an
LLM HTTP endpoint, and email the result.  This file gives a shallow
embedding of the pure logic of each stage.  External effects (the
filesystem, HTTP, SMTP) are modelled as explicit inputs: the recipes
file is an optional list of lines, the per-URL HTTP fetch is an oracle
from URLs to outcomes, the LLM response is a value of a response type,
and the SMTP session is a boolean outcome.  Machine-level details that
the logic never observes (request timeouts, the courtesy sleep between
fetches, the email message object) are not modelled.
-/

/-! ## Python string primitives

Helpers mirroring the Python `str` operations the program uses:
`strip`, `lower`, `startswith`, the substring test `in`, and
`"sep".join`.  Strings are handled through their character lists.
-/

/-- Characters removed by Python `str.strip()` (ASCII whitespace:
space, tab, newline, carriage return, vertical tab, form feed). -/
def isPySpace (c : Char) : Bool :=
  c == ' ' || c == '\t' || c == '\n' || c == '\r' || c == '\x0b' || c == '\x0c'

/-- Python `str.strip()` on a character list: drop whitespace from the
front, then from the back. -/
def pyStripChars (l : List Char) : List Char :=
  List.rdropWhile isPySpace (l.dropWhile isPySpace)

/-- Python `str.strip()`. -/
def pyStrip (s : String) : String :=
  String.mk (pyStripChars s.data)

/-- Python `str.lower()` restricted to ASCII letters (the only case the
program distinguishes: URL paths and fixed ASCII keywords). -/
def pyLowerChar (c : Char) : Char :=
  if 65 ≤ c.toNat && c.toNat ≤ 90 then Char.ofNat (c.toNat + 32) else c

/-- Python `str.lower()`. -/
def pyLower (s : String) : String :=
  String.mk (s.data.map pyLowerChar)

/-- Python `s.startswith(pre)`. -/
def pyStartswith (pre s : String) : Bool :=
  pre.data.isPrefixOf s.data

/-- Python substring membership `needle in hay`. -/
def pyIn (needle hay : String) : Bool :=
  decide (needle.data <:+: hay.data)

/-- Python `sep.join(parts)`. -/
def pyJoin (sep : String) : List String → String
  | [] => ""
  | [s] => s
  | s :: t :: rest => s ++ sep ++ pyJoin sep (t :: rest)

/-! ## Deduplication (`load_recipe_urls`, lines 89-95)

The Python loop keeps a `seen` set and appends each URL on first
sight.  `dedupAux` carries the seen set as a list queried only through
membership. -/

/-- The de-dupe loop of `load_recipe_urls` with its `seen` set made
explicit. -/
def dedupAux (seen : List String) : List String → List String
  | [] => []
  | u :: rest =>
    if seen.contains u then dedupAux seen rest
    else u :: dedupAux (u :: seen) rest

/-- De-dupe preserving order, as in `load_recipe_urls` lines 89-95. -/
def dedup (l : List String) : List String :=
  dedupAux [] l

/-- Spec-side definition of the Deduplicator, following the spec text
"return the ordered sequence of first occurrences only": keep the head
and recurse on the tail with all later copies of the head removed. -/
def firstOccs : List String → List String
  | [] => []
  | u :: rest => u :: firstOccs (rest.filter (fun x => x != u))
termination_by l => l.length
decreasing_by simp; exact Nat.lt_succ_of_le (List.length_filter_le _ _)

theorem dedupAux_congr (seen₁ seen₂ : List String)
    (h : ∀ x, seen₁.contains x = seen₂.contains x) :
    ∀ l, dedupAux seen₁ l = dedupAux seen₂ l := by
  intro l
  induction l generalizing seen₁ seen₂ with
  | nil => rfl
  | cons u rest ih =>
    simp only [dedupAux, h u]
    cases hu : seen₂.contains u with
    | true => simp only [if_true]; exact ih seen₁ seen₂ h
    | false =>
      simp only [Bool.false_eq_true, if_false]
      refine congrArg (List.cons u) (ih (u :: seen₁) (u :: seen₂) ?_)
      intro x
      simp only [List.contains_cons, h x]

theorem dedupAux_cons_seen (u : String) :
    ∀ (l seen : List String),
      dedupAux (u :: seen) l = dedupAux seen (l.filter (fun x => x != u)) := by
  intro l
  induction l with
  | nil => intro seen; rfl
  | cons v rest ih =>
    intro seen
    by_cases hvu : v = u
    · subst hvu
      have h1 : ((v :: seen).contains v) = true := by simp [List.contains_cons]
      have h2 : (v != v) = false := by simp
      simp only [dedupAux, h1, if_true, List.filter_cons, h2, Bool.false_eq_true, if_false]
      exact ih seen
    · have hvu' : (v == u) = false := by simp [hvu]
      have hbne : (v != u) = true := by simp [bne, hvu']
      simp only [dedupAux, List.contains_cons, hvu', Bool.false_or, List.filter_cons,
        hbne, if_true]
      cases hs : seen.contains v with
      | true => simp only [if_true]; exact ih seen
      | false =>
        simp only [Bool.false_eq_true, if_false]
        refine congrArg (List.cons v) ?_
        have hswap : ∀ x, ((v :: u :: seen).contains x) = ((u :: v :: seen).contains x) := by
          intro x
          simp only [List.contains_cons]
          cases x == v <;> cases x == u <;> simp
        rw [dedupAux_congr (v :: u :: seen) (u :: v :: seen) hswap rest]
        exact ih (v :: seen)

theorem dedup_eq_firstOccs (l : List String) : dedup l = firstOccs l := by
  induction l using firstOccs.induct with
  | case1 => simp [dedup, dedupAux, firstOccs]
  | case2 u rest ih =>
    show dedupAux [] (u :: rest) = firstOccs (u :: rest)
    have h0 : dedupAux [] (u :: rest) = u :: dedupAux [u] rest := rfl
    rw [h0]
    simp only [firstOccs]
    refine congrArg (List.cons u) ?_
    rw [dedupAux_cons_seen u rest []]
    exact ih

theorem mem_firstOccs_iff (x : String) : ∀ l, x ∈ firstOccs l ↔ x ∈ l := by
  intro l
  induction l using firstOccs.induct with
  | case1 => simp [firstOccs]
  | case2 u rest ih =>
    simp only [firstOccs, List.mem_cons, ih, List.mem_filter]
    constructor
    · rintro (h | ⟨h, -⟩)
      · exact Or.inl h
      · exact Or.inr h
    · rintro (h | h)
      · exact Or.inl h
      · by_cases hxu : x = u
        · exact Or.inl hxu
        · exact Or.inr ⟨h, by simp [bne, beq_false_of_ne hxu]⟩

theorem firstOccs_nodup : ∀ l, (firstOccs l).Nodup := by
  intro l
  induction l using firstOccs.induct with
  | case1 => simp [firstOccs]
  | case2 u rest ih =>
    simp only [firstOccs, List.nodup_cons]
    refine ⟨fun hmem => ?_, ih⟩
    have := (mem_firstOccs_iff u _).mp hmem
    simp [List.mem_filter] at this

theorem firstOccs_sublist : ∀ l, (firstOccs l).Sublist l := by
  intro l
  induction l using firstOccs.induct with
  | case1 => simp [firstOccs]
  | case2 u rest ih =>
    simp only [firstOccs]
    exact List.Sublist.cons₂ u (ih.trans (List.filter_sublist rest))

/-! ## URL parsing (`urllib.parse.urlparse`)

`is_probably_sweet_url` inspects `p.path` and `p.query` of the parsed
URL.  The relevant fragment of CPython's `urlsplit`/`urlparse` is
embedded below: removal of tab/CR/LF characters, scheme detection,
netloc extraction after `//`, fragment and query splitting, the
`;parameters` split of the last path segment done by `urlparse`, and
the `ValueError` raised for a mismatched square bracket in the
netloc. -/

/-- Split a character list at the first occurrence of `c`; `none` when
`c` does not occur (Python `find` / one-argument `split`). -/
def splitFirst (c : Char) : List Char → Option (List Char × List Char)
  | [] => none
  | x :: xs =>
    if x == c then some ([], xs)
    else (splitFirst c xs).map (fun p => (x :: p.1, p.2))

/-- CPython removes tab, carriage return and line feed from the URL
before parsing (`_UNSAFE_URL_BYTES_TO_REMOVE`). -/
def removeUnsafeUrlChars (l : List Char) : List Char :=
  l.filter (fun c => !(c == '\t' || c == '\r' || c == '\n'))

/-- CPython `scheme_chars`: ASCII letters, digits, `+`, `-`, `.`. -/
def isSchemeChar (c : Char) : Bool :=
  c.isAlpha || c.isDigit || c == '+' || c == '-' || c == '.'

/-- Split off a leading `scheme:` when the text before the first `:`
is a nonempty ASCII-letter-led run of scheme characters (CPython
`urlsplit` scheme detection); the scheme comes back lower-cased, the
empty string when absent. -/
def schemeSplit (l : List Char) : String × List Char :=
  match splitFirst ':' l with
  | none => ("", l)
  | some (before, after) =>
    match before with
    | [] => ("", l)
    | c0 :: rest0 =>
      if c0.isAlpha && rest0.all isSchemeChar then (pyLower (String.mk before), after)
      else ("", l)

/-- Drop a leading `//netloc` (CPython `_splitnetloc`: the netloc runs
to the first `/`, `?` or `#`, which stays in the remainder). -/
def dropNetloc (l : List Char) : List Char :=
  match l with
  | '/' :: '/' :: rest => rest.dropWhile (fun c => !(c == '/' || c == '?' || c == '#'))
  | _ => l

/-- Split off the fragment at the first `#` (CPython `urlsplit`). -/
def splitFragment (l : List Char) : List Char :=
  match splitFirst '#' l with
  | none => l
  | some (before, _) => before

/-- Split the query at the first `?` (CPython `urlsplit`). -/
def splitQuery (l : List Char) : List Char × List Char :=
  match splitFirst '?' l with
  | none => (l, [])
  | some (before, after) => (before, after)

/-- CPython `urlparse._splitparams`: when the path has a `/`, split the
`;params` of the last segment only; otherwise split at the first `;`. -/
def splitParams (path : List Char) : List Char :=
  match splitFirst '/' path.reverse with
  | some (revSeg, revBefore) =>
    match splitFirst ';' revSeg.reverse with
    | some (keep, _) => revBefore.reverse ++ '/' :: keep
    | none => path
  | none =>
    match splitFirst ';' path with
    | some (keep, _) => keep
    | none => path

/-- CPython `uses_params`: the schemes (with the empty scheme) whose
path gets its `;parameters` split off by `urlparse`. -/
def uses_params : List String :=
  ["", "ftp", "hdl", "prospero", "http", "imap",
   "https", "shttp", "rtsp", "rtspu", "sip", "sips",
   "mms", "sftp", "tel"]

/-- The `path` and `query` components of `urlparse(url)`, the only two
fields `is_probably_sweet_url` reads, as computed on the inputs where
`urlparse` returns instead of raising.  The `ValueError` branches of
`urlsplit` are modelled separately: `invalidIpv6` below decides the
mismatched-bracket branch, and `urlparseSafe` bounds the inputs on
which no raising branch can fire. -/
def urlparsePathQuery (url : String) : String × String :=
  let l := removeUnsafeUrlChars url.data
  let sp := schemeSplit l
  let l := dropNetloc sp.2
  let l := splitFragment l
  let pq := splitQuery l
  let path := if uses_params.contains sp.1 then splitParams pq.1 else pq.1
  (String.mk path, String.mk pq.2)

/-- The netloc `urlsplit` extracts: the text between a leading `//`
(after the scheme) and the first `/`, `?` or `#`; empty when the URL
has no `//` authority. -/
def urlNetloc (url : String) : List Char :=
  let l := removeUnsafeUrlChars url.data
  let sp := schemeSplit l
  match sp.2 with
  | '/' :: '/' :: rest => rest.takeWhile (fun c => !(c == '/' || c == '?' || c == '#'))
  | _ => []

/-- CPython `urlsplit` raises `ValueError("Invalid IPv6 URL")` when
the netloc holds a `[` without `]` or a `]` without `[`. -/
def invalidIpv6 (netloc : List Char) : Bool :=
  (netloc.contains '[' && !netloc.contains ']')
    || (netloc.contains ']' && !netloc.contains '[')

/-- A conservative guard under which no raising branch of CPython
`urlsplit`/`urlparse` can fire: the netloc holds no square bracket at
all (so neither the mismatched-bracket check nor the bracketed-host
validation of newer CPython applies) and is pure ASCII (so the NFKC
netloc check returns without raising). -/
def urlparseSafe (url : String) : Bool :=
  !(urlNetloc url).contains '[' && !(urlNetloc url).contains ']'
    && (urlNetloc url).all (fun c => c.toNat < 128)

/-! ## Sweet-content filter (`is_probably_sweet_url`, lines 53-64) -/

/-- The fixed dessert keyword set `DESSERT_KEYWORDS` (a Python set;
only membership is ever used, so a list is an adequate model). -/
def DESSERT_KEYWORDS : List String :=
  ["cookie", "cookies", "cake", "brownie", "brownies", "muffin", "muffins",
   "banana-bread", "bananabread", "banana_bread", "loaf", "cupcake", "cupcakes",
   "slice", "biscuit", "biscuits", "pudding", "pie", "tart", "donut", "doughnut",
   "fudge", "ice-cream", "icecream", "gelato", "sweet", "dessert",
   "chocolate", "nutella", "caramel", "smoothie"]

/-- The lower-cased haystack `(p.path + " " + p.query).lower()`. -/
def sweetHaystack (url : String) : String :=
  pyLower ((urlparsePathQuery url).1 ++ " " ++ (urlparsePathQuery url).2)

/-- Line 61: `is_probably_sweet_url`. -/
def is_probably_sweet_url (url : String) : Bool :=
  DESSERT_KEYWORDS.any (fun k => pyIn k (sweetHaystack url))

/-- Line 61: `is_probably_sweet_url` with the exception behaviour of
`urlparse` made visible: `Except.error` models the `ValueError`
escaping the function (it has no handler), `Except.ok` the returned
boolean.  Only the mismatched-bracket branch is decided here; the
remaining raising branches (bracketed-host validation, the NFKC
netloc check) concern only netlocs with a bracket or non-ASCII
characters, which `urlparseSafe` rules out. -/
def is_probably_sweet_url_checked (url : String) : Except String Bool :=
  if invalidIpv6 (urlNetloc url) then Except.error "Invalid IPv6 URL"
  else Except.ok (is_probably_sweet_url url)


/-! ## Properties of `pyStrip` -/

theorem dropWhile_head_false (p : Char → Bool) (l : List Char) (hl : 0 < (l.dropWhile p).length) :
    p ((l.dropWhile p).get ⟨0, hl⟩) = false := by
  have h := List.dropWhile_idempotent (l := l) (p := p)
  have h2 := (List.dropWhile_eq_self_iff).mp h
  have := h2 hl
  simpa using this

theorem pyStripChars_idem (l : List Char) : pyStripChars (pyStripChars l) = pyStripChars l := by
  set d := l.dropWhile isPySpace with hd
  set r := List.rdropWhile isPySpace d with hr
  have hpre : r <+: d := List.rdropWhile_prefix _ _
  have hdw : r.dropWhile isPySpace = r := by
    refine (List.dropWhile_eq_self_iff).mpr ?_
    intro hl
    have hld : 0 < d.length := lt_of_lt_of_le hl hpre.length_le
    have hget : r.get ⟨0, hl⟩ = d.get ⟨0, hld⟩ := by
      have := hpre.getElem hl
      simpa [List.get_eq_getElem] using this
    rw [hget]
    simpa using dropWhile_head_false isPySpace l hld
  show List.rdropWhile isPySpace (r.dropWhile isPySpace) = r
  rw [hdw, hr]
  exact List.rdropWhile_idempotent _ _

theorem pyStrip_idem (s : String) : pyStrip (pyStrip s) = pyStrip s := by
  simp [pyStrip, pyStripChars_idem]

theorem pyStripChars_all_space (l : List Char) (h : l.all isPySpace) :
    pyStripChars l = [] := by
  have h1 : l.dropWhile isPySpace = [] := by
    rw [List.dropWhile_eq_nil_iff]
    intro x hx
    exact List.all_eq_true.mp h x hx
  simp [pyStripChars, h1, List.rdropWhile]

theorem infix_dropWhile_of_head (p : Char → Bool) (m : List Char) (c : Char)
    (hc : m.head? = some c) (hpc : p c = false) :
    ∀ l, m <:+: l → m <:+: l.dropWhile p := by
  intro l
  induction l with
  | nil =>
    intro h
    have hm : m = [] := by simpa using h
    subst hm
    simp at hc
  | cons x xs ih =>
    intro h
    cases hx : p x with
    | false => simpa [List.dropWhile_cons, hx] using h
    | true =>
      rw [List.dropWhile_cons, if_pos hx]
      rcases List.infix_cons_iff.mp h with hpre | hinf
      · exfalso
        rcases m with _ | ⟨m0, mrest⟩
        · simp at hc
        · have hm0c : m0 = c := by simpa using hc
          have hm0x : m0 = x := (List.cons_prefix_cons.mp hpre).1
          have hcx : c = x := hm0c ▸ hm0x
          rw [← hcx] at hx
          simp [hpc] at hx
      · exact ih hinf

theorem infix_pyStripChars (m l : List Char) (c₀ c₁ : Char)
    (hh : m.head? = some c₀) (hh0 : isPySpace c₀ = false)
    (hl : m.getLast? = some c₁) (hl1 : isPySpace c₁ = false)
    (h : m <:+: l) : m <:+: pyStripChars l := by
  have h1 : m <:+: l.dropWhile isPySpace :=
    infix_dropWhile_of_head isPySpace m c₀ hh hh0 l h
  have h2 : m.reverse <:+: (l.dropWhile isPySpace).reverse := List.reverse_infix.mpr h1
  have hh2 : m.reverse.head? = some c₁ := by rw [List.head?_reverse]; exact hl
  have h3 := infix_dropWhile_of_head isPySpace m.reverse c₁ hh2 hl1 _ h2
  have h4 : m.reverse <:+:
      (((l.dropWhile isPySpace).reverse.dropWhile isPySpace).reverse).reverse := by
    simpa using h3
  have h5 := List.reverse_infix.mp h4
  simpa [pyStripChars, List.rdropWhile] using h5

/-! ## URL loader (`load_recipe_urls`, lines 66-95) -/

/-- Line 49: the built-in fallback list, empty in the source. -/
def DEFAULT_URLS : List String := []

/-- Lines 74-78: per-line processing of the recipes file: strip each
line, skip blank lines and lines starting with `#`, keep the rest. -/
def rawLines (lines : List String) : List String :=
  lines.filterMap (fun line =>
    let s := pyStrip line
    if s == "" || pyStartswith "#" s then none else some s)

/-- Lines 72-80: the candidate list is the processed file lines when
the recipes file exists, `DEFAULT_URLS` otherwise. -/
def loadedCandidates (fileLines : Option (List String)) : List String :=
  match fileLines with
  | some lines => rawLines lines
  | none => DEFAULT_URLS

/-- Line 82: keep re-stripped entries that are nonempty and whose strip
starts with `http`. -/
def httpOnly (urls : List String) : List String :=
  urls.filterMap (fun u =>
    if u != "" && pyStartswith "http" (pyStrip u) then some (pyStrip u) else none)

/-- Lines 84-86: drop sweet URLs unless the stripped `INCLUDE_SWEETS`
value equals `"1"`. -/
def sweetFilterStep (includeSweetsEnv : Option String) (urls : List String) : List String :=
  if pyStrip (includeSweetsEnv.getD "") == "1" then urls
  else urls.filter (fun u => !is_probably_sweet_url u)

/-- Lines 66-95: `load_recipe_urls`, with the recipes file contents
(`none` = file missing) and the `INCLUDE_SWEETS` variable as explicit
inputs. -/
def load_recipe_urls (fileLines : Option (List String))
    (includeSweetsEnv : Option String) : List String :=
  dedup (sweetFilterStep includeSweetsEnv (httpOnly (loadedCandidates fileLines)))

/-! ## Title fetcher (`fetch_title` / `build_link_metas`, lines 100-126)

The HTTP GET and the HTML parse are modelled as one outcome value per
URL: `fail` is any exception inside the `try` block (connection error,
timeout, redirect loop, parse error), `ok status og doc` is a parsed
response, where `og` is the `content` attribute of the
`meta property="og:title"` tag when that tag and attribute are present
and `doc` is the string of the `title` element when present. -/

inductive FetchResult where
  | fail : FetchResult
  | ok (status : Nat) (og : Option String) (doc : Option String) : FetchResult

/-- Lines 113-114: the document-title branch; an absent tag, an absent
string or an empty string yields the empty title. -/
def docTitleText (doc : Option String) : String :=
  match doc with
  | some s => if s == "" then "" else pyStrip s
  | none => ""

/-- Lines 105-117: `fetch_title`.  `requests.raise_for_status` raises
exactly for status codes in `[400, 600)` (client and server errors);
any other returned status, including informational/redirect codes and
nonstandard codes up to 999, falls through to the HTML parse.  Every
exception inside the `try` block is swallowed into the empty title, so
the function is total. -/
def fetch_title (r : FetchResult) : String :=
  match r with
  | .fail => ""
  | .ok status og doc =>
    if 400 ≤ status && status < 600 then ""
    else
      match og with
      | some c => if c == "" then docTitleText doc else pyStrip c
      | none => docTitleText doc

/-- Line 100: the `LinkMeta` dataclass (spec name `RecipeLink`). -/
structure LinkMeta where
  url : String
  title : String

/-- Lines 119-126: `build_link_metas`: fetch titles for the first
`max_to_fetch` URLs, empty titles beyond the cap.  The courtesy
`time.sleep(0.2)` has no observable effect on the result. -/
def build_link_metas (urls : List String) (fetch : String → FetchResult)
    (max_to_fetch : Nat) : List LinkMeta :=
  (urls.take max_to_fetch).map (fun u => ⟨u, fetch_title (fetch u)⟩)
    ++ (urls.drop max_to_fetch).map (fun u => ⟨u, ""⟩)

/-! ## Suggestion generator (`call_openai_suggestions`, lines 130-218)

The HTTP POST is modelled by passing the service's response as a value;
the outcome records the request that would be sent (`none` when the
code raises before building one).  The prompt f-string of lines 151-189
is transcribed verbatim in segments, split at its three interpolation
points; apostrophes and em-dashes appear as escapes. -/

/-- Lines 144-149: the fixed staple-ingredient list. -/
def staples : List String :=
  ["salt", "pepper", "oil", "olive oil", "vegetable oil",
   "butter", "flour", "sugar", "rice", "pasta", "noodles",
   "bread", "stock cubes", "soy sauce", "vinegar",
   "garlic", "onion", "lemon", "water"]

/-- Lines 136-141: one bullet per link, `- title em-dash url` when a
title is present, `- url` otherwise. -/
def link_lines (link_metas : List LinkMeta) : List String :=
  link_metas.map (fun m =>
    if m.title != "" then "- " ++ m.title ++ " — " ++ m.url
    else "- " ++ m.url)

/-- Line 142: `links_block`. -/
def links_block (link_metas : List LinkMeta) : String :=
  pyJoin "\n" (link_lines link_metas)

/-- Prompt text from the opening of the f-string to the first
`meals_per_week` interpolation. -/
def promptSegA : String :=
  "\nYou are helping a household with dinner ideas. You will be given a curated list of recipe links (titles included when available).\n\nProduce:\n\n1) "

/-- The hard-coded sentence head of item 1), kept as its own segment:
the word Seven does not vary with `meals_per_week`. -/
def promptSegSeven : String :=
  "Seven *suggestions* for dinners (exactly "

/-- The two characters closing the sentence of item 1) right after the
first `meals_per_week` interpolation. -/
def promptSegBclose : String := ")."

/-- Prompt text from after `(exactly N).` to the staples list. -/
def promptSegBrest : String :=
  "\n   For each suggestion:\n   - Include the recipe title\n   - Include the URL\n   - Add ONE short sentence (max ~18 words) summarising what the dish is (e.g., protein + style + key flavour/ingredient).\n\nRules:\n- Choose from the provided links ONLY (do not invent URLs).\n- Avoid desserts/sweets and avoid non-recipe pages.\n- Keep the tone casual and framed as suggestions (not a strict day-by-day plan).\n\n2) A section titled \"Things we\x27d need to have\" with NO quantities.\n   - Include only *non-staples* that someone might need to buy specially (e.g., chicken thighs, salmon, fresh herbs, coconut milk).\n   - Do NOT include common pantry staples like: "

/-- Prompt text between the staples list and the second
`meals_per_week` interpolation. -/
def promptSegC : String :=
  ".\n   - Do NOT include measurements (no grams/ml/cups/tbsp).\n   - Group into exactly these headings:\n     - Protein\n     - Produce\n     - Other\n   - If unsure, omit.\n\nOutput format (exact):\n- Start with a one-line greeting.\n- Then a section header: \"Suggestions\"\n- Then suggestions as a numbered list 1.."

/-- Prompt text between the second interpolation and `links_block`
(the source line about produce names ends in a trailing space). -/
def promptSegD : String :=
  ", each on ONE line:\n  \"1. <Title> — <URL> — <one-sentence summary>\"\n- Then a blank line and the header: \"Things we\x27d need to have\"\n- Then the three group headings with bullet lists.\n- Refer to it as \"our\" recipe list, not \"your\" recipe list\n- Use Australian names for produce, e.g. eggplant, not aubergine \n\nRecipe links:\n"

/-- Prompt text between the first interpolation and the staples list. -/
def promptSegB : String :=
  promptSegBclose ++ promptSegBrest

/-- The f-string of lines 151-189 before the final `.strip()`. -/
def promptBody (mealsStr linksBlock : String) : String :=
  promptSegA ++ promptSegSeven ++ mealsStr ++ promptSegB ++ pyJoin ", " staples
    ++ promptSegC ++ mealsStr ++ promptSegD ++ linksBlock ++ "\n"

/-- Lines 151-189: the prompt sent to the LLM (f-string, `.strip()`). -/
def buildPrompt (link_metas : List LinkMeta) (meals_per_week : Int) : String :=
  pyStrip (promptBody (toString meals_per_week) (links_block link_metas))

/-- One content part of an output item of the Responses API payload;
`typ` models `c.get("type")` and `text` models `c.get("text")`, each
absent when the key is missing. -/
structure ContentPart where
  typ : Option String
  text : Option String

/-- One output item; `content` models `item.get("content", [])`. -/
structure OutputItem where
  content : List ContentPart

/-- The HTTP response of the LLM call: status code, raw body text
(quoted in the error message), and the decoded JSON fields the code
reads: `data.get("output", [])` and `data.get("output_text")`. -/
structure ApiResponse where
  status : Nat
  text : String
  output : List OutputItem
  output_text : Option String

/-- Line 211: parts whose type tag is `output_text` or `text`. -/
def textTyped (c : ContentPart) : Bool :=
  c.typ == some "output_text" || c.typ == some "text"

/-- Lines 208-212: the texts of the text-typed content parts of all
output items, in order. -/
def extract_chunks (output : List OutputItem) : List String :=
  output.flatMap (fun item =>
    (item.content.filter textTyped).map (fun c => c.text.getD ""))

/-- Lines 208-218: join the chunks with newlines and strip; fall back
to the top-level `output_text` field; an empty result is an error. -/
def extract_text (r : ApiResponse) : Except String String :=
  let text1 := pyStrip (pyJoin "\n" (extract_chunks r.output))
  let text2 := if text1 == "" then pyStrip (r.output_text.getD "") else text1
  if text2 == "" then Except.error "OpenAI API returned no text output."
  else Except.ok text2

/-- The request the program would POST: model name and prompt text (the
fixed endpoint URL and temperature carry no information). -/
structure ApiRequest where
  model : String
  prompt : String

/-- Result of `call_openai_suggestions`: the request actually built
(`none` when the code raises before any network call) and the returned
text or the raised error. -/
structure CallOutcome where
  request : Option ApiRequest
  result : Except String String

/-- Lines 130-218: `call_openai_suggestions` with the environment and
the network response as explicit inputs. -/
def call_openai_suggestions (apiKeyEnv modelEnv : Option String)
    (link_metas : List LinkMeta) (meals_per_week : Int)
    (resp : ApiResponse) : CallOutcome :=
  let api_key := pyStrip (apiKeyEnv.getD "")
  if api_key == "" then
    ⟨none, Except.error "OPENAI_API_KEY environment variable must be set."⟩
  else
    let model := pyStrip (modelEnv.getD "gpt-5.2")
    let req : ApiRequest := ⟨model, buildPrompt link_metas meals_per_week⟩
    if 400 ≤ resp.status then
      ⟨some req, Except.error ("OpenAI API error " ++ toString resp.status ++ ": " ++ resp.text)⟩
    else
      ⟨some req, extract_text resp⟩

/-! ## Mailer (`send_email`, lines 223-249) and `int()` parsing -/

/-- Accumulate decimal digits; any non-digit character fails (Python
`int()`, without the underscore-separator extension the program never
relies on). -/
def digitsToNatAux (acc : Nat) : List Char → Option Nat
  | [] => some acc
  | c :: rest =>
    if c.isDigit then digitsToNatAux (10 * acc + (c.toNat - 48)) rest else none

/-- Python `int(s)`: optional surrounding whitespace, optional sign,
one or more decimal digits; anything else raises `ValueError`. -/
def pyInt (s : String) : Except String Int :=
  let l := pyStripChars s.data
  let signed : Bool × List Char :=
    match l with
    | '+' :: rest => (false, rest)
    | '-' :: rest => (true, rest)
    | rest => (false, rest)
  match signed.2 with
  | [] => Except.error ("invalid literal for int() with base 10: " ++ s)
  | c :: rest =>
    match digitsToNatAux 0 (c :: rest) with
    | some n => Except.ok (if signed.1 then -(n : Int) else (n : Int))
    | none => Except.error ("invalid literal for int() with base 10: " ++ s)

/-- Result of `send_email`: whether an SMTP session was opened, and
success or the raised error. -/
structure MailOutcome where
  smtpAttempted : Bool
  result : Except String Unit

/-- Lines 223-249: `send_email`.  The credential check precedes any
connection; the SMTP session (connect, STARTTLS, login, send) is one
boolean outcome; composing the message itself cannot fail. -/
def send_email (userEnv passEnv toEnv portEnv : Option String)
    (smtpOk : Bool) (body : String) : MailOutcome :=
  let email_user := pyStrip (userEnv.getD "")
  let email_pass := pyStrip (passEnv.getD "")
  let email_to := pyStrip (toEnv.getD "")
  if !(email_user != "" && email_pass != "" && email_to != "") then
    ⟨false, Except.error "EMAIL_USER, EMAIL_PASS and EMAIL_TO environment variables must be set."⟩
  else
    match pyInt (pyStrip (portEnv.getD "587")) with
    | Except.error e => ⟨false, Except.error e⟩
    | Except.ok _ =>
      if smtpOk then ⟨true, Except.ok ()⟩
      else ⟨true, Except.error "SMTP delivery failed"⟩

/-! ## Orchestrator (`main`, lines 254-264) -/

/-- The environment variables the program reads (lines 16-28). -/
structure Env where
  OPENAI_API_KEY : Option String
  OPENAI_MODEL : Option String
  EMAIL_USER : Option String
  EMAIL_PASS : Option String
  EMAIL_TO : Option String
  SMTP_HOST : Option String
  SMTP_PORT : Option String
  EMAIL_SUBJECT_PREFIX : Option String
  MEALS_PER_WEEK : Option String
  RECIPES_FILE : Option String
  INCLUDE_SWEETS : Option String

/-- Observable outcome of one `main()` run: the exit code (or the
propagated fatal error), whether the no-URLs guidance message was
printed, how many per-URL title fetches were attempted, whether the
LLM endpoint was called, and whether an SMTP session was opened. -/
structure MainOutcome where
  exit : Except String Nat
  printedGuidance : Bool
  titleFetchCalls : Nat
  llmCalled : Bool
  smtpAttempted : Bool

/-- Lines 254-264: `main`, over the recipes file contents, the title
fetch oracle, the LLM response and the SMTP outcome (named `mainRun`
because Lean reserves `main` for an executable entry point). -/
def mainRun (env : Env) (fileLines : Option (List String))
    (fetch : String → FetchResult) (resp : ApiResponse) (smtpOk : Bool) : MainOutcome :=
  let urls := load_recipe_urls fileLines env.INCLUDE_SWEETS
  if urls.isEmpty then
    ⟨Except.ok 2, true, 0, false, false⟩
  else
    match pyInt (pyStrip (env.MEALS_PER_WEEK.getD "7")) with
    | Except.error e => ⟨Except.error e, false, 0, false, false⟩
    | Except.ok meals_per_week =>
      let metas := build_link_metas urls fetch 60
      let titleCalls := min urls.length 60
      let call := call_openai_suggestions env.OPENAI_API_KEY env.OPENAI_MODEL
        metas meals_per_week resp
      match call.result with
      | Except.error e => ⟨Except.error e, false, titleCalls, call.request.isSome, false⟩
      | Except.ok body =>
        let mail := send_email env.EMAIL_USER env.EMAIL_PASS env.EMAIL_TO
          env.SMTP_PORT smtpOk body
        match mail.result with
        | Except.error e => ⟨Except.error e, false, titleCalls, true, mail.smtpAttempted⟩
        | Except.ok _ => ⟨Except.ok 0, false, titleCalls, true, mail.smtpAttempted⟩

/-! ## Shared lemmas about the pipeline stages -/

theorem mem_dedup_iff (x : String) (l : List String) : x ∈ dedup l ↔ x ∈ l := by
  rw [dedup_eq_firstOccs]
  exact mem_firstOccs_iff x l

theorem mem_of_mem_sweetFilterStep (e : Option String) (l : List String) (u : String)
    (h : u ∈ sweetFilterStep e l) : u ∈ l := by
  unfold sweetFilterStep at h
  split at h
  · exact h
  · exact (List.mem_filter.mp h).1

theorem of_mem_httpOnly (l : List String) (u : String) (h : u ∈ httpOnly l) :
    pyStartswith "http" u = true ∧ pyStrip u = u := by
  unfold httpOnly at h
  rcases List.mem_filterMap.mp h with ⟨a, -, ha⟩
  by_cases hc : (a != "" && pyStartswith "http" (pyStrip a)) = true
  · rw [if_pos hc] at ha
    have hu : pyStrip a = u := by injection ha
    refine ⟨?_, ?_⟩
    · rw [← hu]
      exact (Bool.and_eq_true _ _ ▸ hc).2
    · rw [← hu]
      exact pyStrip_idem a
  · rw [if_neg hc] at ha
    cases ha

/-! ## Claim theorems -/

/-- C1: the deduplication step of `load_recipe_urls` returns exactly the
subsequence of first occurrences: it equals the spec-side first
occurrence function, its output has no duplicates, it keeps exactly the
distinct URLs of the input, it is a subsequence of the input (so
first-seen order is preserved), and matching is case-sensitive exact
string equality (two URLs differing only in case both survive). -/
theorem claim_c1_dedup_first_occurrences (l : List String) :
    dedup l = firstOccs l
    ∧ (dedup l).Nodup
    ∧ (∀ x, x ∈ dedup l ↔ x ∈ l)
    ∧ (dedup l).Sublist l
    ∧ dedup ["http://A.example/X", "http://a.example/x"]
        = ["http://A.example/X", "http://a.example/x"] := by
  refine ⟨dedup_eq_firstOccs l, ?_, ?_, ?_, by decide⟩
  · rw [dedup_eq_firstOccs]
    exact firstOccs_nodup l
  · intro x
    exact mem_dedup_iff x l
  · rw [dedup_eq_firstOccs]
    exact firstOccs_sublist l

/-- C2 counterexample: on `http://[::1/cake` the `ValueError` of
`urlparse` (a `[` without `]` in the netloc) escapes
`is_probably_sweet_url`, which has no handler: the function raises
instead of returning a boolean, against the claim that for every URL
string it returns true or false. -/
theorem claim_c2_counterexample :
    is_probably_sweet_url_checked "http://[::1/cake" = Except.error "Invalid IPv6 URL" := by
  rfl

/-- C2 amended: on every URL whose authority (netloc) contains no
square bracket and only ASCII characters, `is_probably_sweet_url`
returns (no raising branch of `urlparse` applies), and returns true
exactly when some keyword of the fixed dessert set occurs as a
substring of the lower-cased `path + " " + query` of the parsed URL;
it is deterministic there.  In particular it accepts a URL whose path
contains `chocolate-brownie` and rejects one whose path is
`grilled-chicken`.  On a URL whose netloc has a mismatched square
bracket it instead raises `ValueError` from `urlparse`. -/
theorem claim_c2_sweet_filter_keyword_iff (url : String)
    (hsafe : urlparseSafe url = true) :
    is_probably_sweet_url_checked url = Except.ok (is_probably_sweet_url url)
    ∧ (is_probably_sweet_url url = true ↔
        ∃ k ∈ DESSERT_KEYWORDS, k.data <:+: (sweetHaystack url).data)
    ∧ is_probably_sweet_url_checked "https://example.com/recipes/chocolate-brownie"
        = Except.ok true
    ∧ is_probably_sweet_url_checked "https://example.com/recipes/grilled-chicken"
        = Except.ok false := by
  refine ⟨?_, ?_, by rfl, by rfl⟩
  · have h1 : (urlNetloc url).contains '[' = false := by
      cases hc : (urlNetloc url).contains '[' with
      | false => rfl
      | true =>
        simp only [urlparseSafe, hc, Bool.not_true, Bool.false_and,
          Bool.false_eq_true] at hsafe
    have h2 : (urlNetloc url).contains ']' = false := by
      cases hc : (urlNetloc url).contains ']' with
      | false => rfl
      | true =>
        simp only [urlparseSafe, hc, Bool.not_true, Bool.false_and, Bool.and_false,
          Bool.false_eq_true] at hsafe
    have h1m : ('[' : Char) ∉ urlNetloc url := by simpa using h1
    have h2m : (']' : Char) ∉ urlNetloc url := by simpa using h2
    simp [is_probably_sweet_url_checked, invalidIpv6, h1m, h2m]
  · simp [is_probably_sweet_url, pyIn, List.any_eq_true]

/-- C2 witness: a concrete bracket-free URL satisfies the guard and
the checked function returns the boolean of the total one. -/
theorem claim_c2_sweet_filter_keyword_iff_witness :
    is_probably_sweet_url_checked "https://example.com/recipes/chocolate-brownie"
      = Except.ok (is_probably_sweet_url "https://example.com/recipes/chocolate-brownie") :=
  (claim_c2_sweet_filter_keyword_iff "https://example.com/recipes/chocolate-brownie"
    (by decide)).1

/-- C5: every entry of `load_recipe_urls` starts with `http`, is
whitespace-trimmed, and in consequence is neither empty nor derived
from a blank or `#`-comment line (its trimmed value starts with `h`,
not `#`). -/
theorem claim_c5_loader_invariants (fileLines : Option (List String))
    (includeSweetsEnv : Option String) (u : String)
    (hu : u ∈ load_recipe_urls fileLines includeSweetsEnv) :
    pyStartswith "http" u = true ∧ pyStrip u = u
      ∧ u ≠ "" ∧ pyStartswith "#" u = false := by
  have h1 : u ∈ sweetFilterStep includeSweetsEnv (httpOnly (loadedCandidates fileLines)) :=
    (mem_dedup_iff u _).mp hu
  have h2 : u ∈ httpOnly (loadedCandidates fileLines) :=
    mem_of_mem_sweetFilterStep _ _ u h1
  obtain ⟨hhttp, htrim⟩ := of_mem_httpOnly _ u h2
  refine ⟨hhttp, htrim, ?_, ?_⟩
  · intro he
    rw [he] at hhttp
    simp [pyStartswith, List.isPrefixOf] at hhttp
  · rcases List.isPrefixOf_iff_prefix.mp hhttp with ⟨t, ht⟩
    show (("#".data).isPrefixOf u.data) = false
    rw [← ht]
    rfl

/-- C5 witness: a concrete run through the loader. -/
theorem claim_c5_loader_invariants_witness :
    pyStartswith "http" "http://a.example/stew" = true
    ∧ pyStrip "http://a.example/stew" = "http://a.example/stew"
    ∧ "http://a.example/stew" ≠ ""
    ∧ pyStartswith "#" "http://a.example/stew" = false :=
  claim_c5_loader_invariants (some [" http://a.example/stew "]) none
    "http://a.example/stew" (by decide)

/-- C3 counterexample: `load_recipe_urls` is already dessert-filtered:
with a recipes file holding only the line `http://a.example/cake` and
the include-sweets variable unset, that trimmed `http` line does not
appear in the output at all (the claim says every such line appears,
dessert keywords included). -/
theorem claim_c3_counterexample :
    "http://a.example/cake" ∉ load_recipe_urls (some ["http://a.example/cake"]) none := by
  decide

/-- C3 amended: `load_recipe_urls` returns the trimmed kept lines only
after the http filter, the sweet-content filter (unless the flag strips
to `"1"`) and deduplication; only its intermediate line-reading stage
(`loadedCandidates`) is raw: every trimmed non-blank, non-comment line
of the file appears there, in file order (the stage output is a
subsequence of the stripped file lines), duplicates and dessert URLs
included. -/
theorem claim_c3_loader_not_raw (fileLines : Option (List String))
    (includeSweetsEnv : Option String) :
    load_recipe_urls fileLines includeSweetsEnv
      = dedup (sweetFilterStep includeSweetsEnv (httpOnly (loadedCandidates fileLines)))
    ∧ (∀ lines line, fileLines = some lines → line ∈ lines →
        pyStrip line ≠ "" → pyStartswith "#" (pyStrip line) = false →
        pyStrip line ∈ loadedCandidates fileLines)
    ∧ (∀ lines, fileLines = some lines →
        (loadedCandidates fileLines).Sublist (lines.map pyStrip)) := by
  refine ⟨rfl, ?_, ?_⟩
  · intro lines line hfl hmem hne hcomment
    subst hfl
    show pyStrip line ∈ rawLines lines
    refine List.mem_filterMap.mpr ⟨line, hmem, ?_⟩
    have h1 : (pyStrip line == "") = false := by
      simpa using hne
    simp only [h1, hcomment, Bool.or_self, Bool.false_eq_true, if_false]
  · intro lines hfl
    subst hfl
    show (rawLines lines).Sublist (lines.map pyStrip)
    unfold rawLines
    induction lines with
    | nil => simp
    | cons l ls ih =>
      rw [List.filterMap_cons, List.map_cons]
      split
      · exact ih.cons (pyStrip l)
      next b hb =>
        have hbs : b = pyStrip l := by
          by_cases hc : (pyStrip l == "" || pyStartswith "#" (pyStrip l)) = true
          · rw [if_pos hc] at hb; cases hb
          · rw [if_neg hc] at hb; injection hb with h; exact h.symm
        rw [hbs]
        exact ih.cons₂ (pyStrip l)

/-- C3 amended witness: a dessert URL that the final output drops is
still present in the raw line-reading stage. -/
theorem claim_c3_loader_not_raw_witness :
    pyStrip "http://b.example/cake"
      ∈ loadedCandidates (some ["http://b.example/cake", "http://b.example/cake"]) :=
  (claim_c3_loader_not_raw (some ["http://b.example/cake", "http://b.example/cake"])
      none).2.1 _ "http://b.example/cake" rfl (by decide) (by decide) (by decide)

/-- C4 counterexample: `INCLUDE_SWEETS=yes` is a present value, yet the
dessert filter still runs and drops the sweet URL (only the exact
stripped value `"1"` disables filtering). -/
theorem claim_c4_counterexample :
    load_recipe_urls (some ["http://a.example/cake"]) (some "yes") = [] := by
  decide

/-- C4 amended: the Sweet-Content Filter is applied exactly when the
stripped `INCLUDE_SWEETS` value differs from `"1"` (in particular when
the variable is absent); when the stripped value equals `"1"` the
filter is skipped entirely and sweet URLs are retained. -/
theorem claim_c4_sweets_flag (fileLines : Option (List String))
    (includeSweetsEnv : Option String) :
    (pyStrip (includeSweetsEnv.getD "") ≠ "1" →
      ∀ u ∈ load_recipe_urls fileLines includeSweetsEnv,
        is_probably_sweet_url u = false)
    ∧ (pyStrip (includeSweetsEnv.getD "") = "1" →
      load_recipe_urls fileLines includeSweetsEnv
        = dedup (httpOnly (loadedCandidates fileLines))) := by
  constructor
  · intro hne u hu
    have h1 : u ∈ sweetFilterStep includeSweetsEnv (httpOnly (loadedCandidates fileLines)) :=
      (mem_dedup_iff u _).mp hu
    unfold sweetFilterStep at h1
    rw [if_neg (by simpa using hne)] at h1
    have := (List.mem_filter.mp h1).2
    simpa using this
  · intro heq
    show dedup (sweetFilterStep includeSweetsEnv (httpOnly (loadedCandidates fileLines))) = _
    unfold sweetFilterStep
    rw [if_pos (by simpa using heq)]

/-- C4 witness: with the flag absent the sweet URL is dropped; with the
stripped value `"1"` it is retained. -/
theorem claim_c4_sweets_flag_witness :
    "http://a.example/cake" ∉ load_recipe_urls (some ["http://a.example/cake"]) none
    ∧ load_recipe_urls (some ["http://a.example/cake"]) (some " 1 ")
        = ["http://a.example/cake"] := by
  constructor
  · intro hmem
    have hfalse := (claim_c4_sweets_flag (some ["http://a.example/cake"]) none).1
      (by decide) "http://a.example/cake" hmem
    exact absurd hfalse (by decide)
  · have h := (claim_c4_sweets_flag (some ["http://a.example/cake"]) (some " 1 ")).2
      (by decide)
    rw [h]
    decide

theorem pyStrip_empty : pyStrip "" = "" := rfl

theorem pyStrip_docTitleText (doc : Option String) :
    pyStrip (docTitleText doc) = docTitleText doc := by
  cases doc with
  | none => exact pyStrip_empty
  | some s =>
    simp only [docTitleText]
    by_cases hs : (s == "") = true
    · rw [if_pos hs]; exact pyStrip_empty
    · rw [if_neg hs]; exact pyStrip_idem s

/-- C6 counterexample: a returned status of 600 is not a success
status, yet `requests.raise_for_status` raises only for codes in
`[400, 600)`, so the program goes on to parse the body and returns the
title it finds there; the claim that a non-success status always
yields the empty string fails at this input. -/
theorem claim_c6_counterexample :
    fetch_title (FetchResult.ok 600 (some "Sweet Potato Curry") none)
      = "Sweet Potato Curry"
    ∧ fetch_title (FetchResult.ok 600 (some "Sweet Potato Curry") none) ≠ "" := by
  exact ⟨by decide, by decide⟩

/-- C6 amended: `fetch_title` is a total function of the per-URL
outcome (every exception inside its `try` is swallowed, so it never
raises): a raised GET, a status in `[400, 600)` (exactly the codes for
which `raise_for_status` raises), and the absence of both an Open
Graph title and a document title all yield the empty string; for any
other returned status, including redirect codes and nonstandard codes
of 600 and above, the body is parsed anyway, a non-empty Open Graph
`content` wins over any document title and is returned stripped,
otherwise a present non-empty document title is returned stripped;
every result is whitespace-trimmed. -/
theorem claim_c6_fetch_title_never_raises :
    fetch_title FetchResult.fail = ""
    ∧ (∀ s og doc, 400 ≤ s → s < 600 → fetch_title (FetchResult.ok s og doc) = "")
    ∧ (∀ s, s < 400 ∨ 600 ≤ s → fetch_title (FetchResult.ok s none none) = "")
    ∧ (∀ s c doc, s < 400 ∨ 600 ≤ s → c ≠ "" →
        fetch_title (FetchResult.ok s (some c) doc) = pyStrip c)
    ∧ (∀ s t, s < 400 ∨ 600 ≤ s → t ≠ "" →
        fetch_title (FetchResult.ok s none (some t)) = pyStrip t)
    ∧ (∀ r, pyStrip (fetch_title r) = fetch_title r) := by
  have hcondF : ∀ s : Nat, s < 400 ∨ 600 ≤ s → ((400 ≤ s && s < 600) = false) := by
    intro s h
    rcases h with h | h <;> simp <;> omega
  refine ⟨rfl, ?_, ?_, ?_, ?_, ?_⟩
  · intro s og doc h1 h2
    simp only [fetch_title]
    rw [if_pos (by simp [h1, h2])]
  · intro s h
    simp only [fetch_title]
    rw [if_neg (by simp [hcondF s h])]
    rfl
  · intro s c doc h hc
    simp only [fetch_title]
    rw [if_neg (by simp [hcondF s h]), if_neg (by simpa using hc)]
  · intro s t h ht
    simp only [fetch_title, docTitleText]
    rw [if_neg (by simp [hcondF s h]), if_neg (by simpa using ht)]
  · intro r
    cases r with
    | fail => exact pyStrip_empty
    | ok s og doc =>
      simp only [fetch_title]
      by_cases hs : (400 ≤ s && s < 600) = true
      · rw [if_pos hs]; exact pyStrip_empty
      · rw [if_neg hs]
        cases og with
        | none => exact pyStrip_docTitleText doc
        | some c =>
          show pyStrip (if (c == "") = true then docTitleText doc else pyStrip c)
            = if (c == "") = true then docTitleText doc else pyStrip c
          by_cases hc : (c == "") = true
          · rw [if_pos hc]; exact pyStrip_docTitleText doc
          · rw [if_neg hc]; exact pyStrip_idem c

/-- C6 witness: concrete outcomes: a failed GET, a 404, a response with
only an Open Graph title (preferred, stripped), and one with only a
document title. -/
theorem claim_c6_fetch_title_never_raises_witness :
    fetch_title FetchResult.fail = ""
    ∧ fetch_title (FetchResult.ok 404 (some "T") (some "D")) = ""
    ∧ fetch_title (FetchResult.ok 200 (some " OG Title ") (some "Doc")) = pyStrip " OG Title "
    ∧ fetch_title (FetchResult.ok 200 none (some " Doc Title ")) = pyStrip " Doc Title " := by
  have h := claim_c6_fetch_title_never_raises
  exact ⟨h.1, h.2.1 404 (some "T") (some "D") (by omega) (by omega),
    h.2.2.2.1 200 " OG Title " (some "Doc") (Or.inl (by omega)) (by decide),
    h.2.2.2.2.1 200 " Doc Title " (Or.inl (by omega)) (by decide)⟩

/-- C7: when the `OPENAI_API_KEY` value is absent or blank (strips to
the empty string), `call_openai_suggestions` raises its configuration
error with no request built, hence before any outbound network call. -/
theorem claim_c7_missing_api_key (apiKeyEnv modelEnv : Option String)
    (link_metas : List LinkMeta) (meals_per_week : Int) (resp : ApiResponse)
    (h : pyStrip (apiKeyEnv.getD "") = "") :
    call_openai_suggestions apiKeyEnv modelEnv link_metas meals_per_week resp
      = ⟨none, Except.error "OPENAI_API_KEY environment variable must be set."⟩ := by
  simp only [call_openai_suggestions, h]
  rw [if_pos (by simp)]

/-- C7 witness: a blank (whitespace-only) key raises the configuration
error and builds no request. -/
theorem claim_c7_missing_api_key_witness :
    call_openai_suggestions (some "   ") none [] 7 ⟨200, "", [], none⟩
      = ⟨none, Except.error "OPENAI_API_KEY environment variable must be set."⟩ :=
  claim_c7_missing_api_key (some "   ") none [] 7 ⟨200, "", [], none⟩ (by decide)

/-- C10: for every `meals_per_week` the prompt contains the hard-coded
word Seven immediately followed by the varying count: the substring
`Seven *suggestions* for dinners (exactly N).` with `N` the decimal
rendering of `meals_per_week`; so whenever `meals_per_week` is not 7
the prompt asks for seven suggestions and for exactly `N` at once. -/
theorem claim_c10_prompt_hardcoded_seven (link_metas : List LinkMeta)
    (meals_per_week : Int) :
    ("Seven *suggestions* for dinners (exactly ".data
      ++ (toString meals_per_week).data ++ ").".data)
      <:+: (buildPrompt link_metas meals_per_week).data := by
  have hsev : promptSegSeven.data = "Seven *suggestions* for dinners (exactly ".data := rfl
  have hclo : promptSegBclose.data = ").".data := rfl
  have hstr : promptBody (toString meals_per_week) (links_block link_metas)
      = promptSegA ++ (promptSegSeven ++ toString meals_per_week ++ promptSegBclose)
        ++ (promptSegBrest ++ pyJoin ", " staples ++ promptSegC
          ++ toString meals_per_week ++ promptSegD ++ links_block link_metas ++ "\n") := by
    simp only [promptBody, promptSegB, String.append_assoc]
  have hinf : ("Seven *suggestions* for dinners (exactly ".data
      ++ (toString meals_per_week).data ++ ").".data)
      <:+: (promptBody (toString meals_per_week) (links_block link_metas)).data := by
    refine ⟨promptSegA.data,
      (promptSegBrest ++ pyJoin ", " staples ++ promptSegC
        ++ toString meals_per_week ++ promptSegD ++ links_block link_metas ++ "\n").data, ?_⟩
    rw [hstr]
    simp only [String.data_append, hsev, hclo]
  have hh : ("Seven *suggestions* for dinners (exactly ".data
      ++ (toString meals_per_week).data ++ ").".data).head? = some 'S' := rfl
  have hl : ("Seven *suggestions* for dinners (exactly ".data
      ++ (toString meals_per_week).data ++ ").".data).getLast? = some '.' := by
    rw [List.append_assoc, List.getLast?_append, List.getLast?_append]
    rfl
  have hbp : (buildPrompt link_metas meals_per_week).data
      = pyStripChars ((promptBody (toString meals_per_week)
          (links_block link_metas)).data) := by
    simp only [buildPrompt, pyStrip]
  rw [hbp]
  exact infix_pyStripChars _ _ 'S' '.' hh (by decide) hl (by decide) hinf

/-- A string is entirely Python whitespace (so `strip` erases it). -/
def allPySpace (s : String) : Bool :=
  s.data.all isPySpace

theorem pyStrip_of_allPySpace (s : String) (h : allPySpace s = true) : pyStrip s = "" := by
  unfold pyStrip
  rw [pyStripChars_all_space s.data (by simpa [allPySpace] using h)]

theorem allPySpace_append (a b : String) (ha : allPySpace a = true)
    (hb : allPySpace b = true) : allPySpace (a ++ b) = true := by
  simp only [allPySpace, String.data_append, List.all_append]
  simp only [allPySpace] at ha hb
  simp [ha, hb]

theorem allPySpace_pyJoin : ∀ l : List String, (∀ s ∈ l, allPySpace s = true) →
    allPySpace (pyJoin "\n" l) = true := by
  intro l
  induction l with
  | nil => intro _; rfl
  | cons s rest ih =>
    intro h
    cases rest with
    | nil => exact h s (by simp)
    | cons t ts =>
      show allPySpace (s ++ "\n" ++ pyJoin "\n" (t :: ts)) = true
      refine allPySpace_append _ _ (allPySpace_append _ _ (h s (by simp)) (by decide)) ?_
      exact ih (fun x hx => h x (by simp [hx]))

theorem extract_chunks_all_space (output : List OutputItem)
    (h : ∀ item ∈ output, ∀ c ∈ item.content,
      textTyped c = true → allPySpace (c.text.getD "") = true) :
    ∀ s ∈ extract_chunks output, allPySpace s = true := by
  intro s hs
  unfold extract_chunks at hs
  rcases List.mem_flatMap.mp hs with ⟨item, hitem, hmem⟩
  rcases List.mem_map.mp hmem with ⟨c, hcf, rfl⟩
  have hc := List.mem_filter.mp hcf
  exact h item hitem c hc.1 hc.2

/-- C8: when no content part of a text-typed kind carries anything but
whitespace and the top-level fallback field is also whitespace-only,
`call_openai_suggestions` fails with the empty-output error (never
returns text), and `main` never opens an SMTP session for such a
response, so no blank email is sent. -/
theorem claim_c8_empty_output (resp : ApiResponse)
    (hparts : ∀ item ∈ resp.output, ∀ c ∈ item.content,
      textTyped c = true → allPySpace (c.text.getD "") = true)
    (hfallback : allPySpace (resp.output_text.getD "") = true) :
    extract_text resp = Except.error "OpenAI API returned no text output."
    ∧ (∀ apiKeyEnv modelEnv link_metas meals_per_week body,
        (call_openai_suggestions apiKeyEnv modelEnv link_metas
          meals_per_week resp).result ≠ Except.ok body)
    ∧ (∀ env fileLines fetch smtpOk,
        (mainRun env fileLines fetch resp smtpOk).smtpAttempted = false) := by
  have h1 : pyStrip (pyJoin "\n" (extract_chunks resp.output)) = "" :=
    pyStrip_of_allPySpace _ (allPySpace_pyJoin _ (extract_chunks_all_space _ hparts))
  have h2 : pyStrip (resp.output_text.getD "") = "" :=
    pyStrip_of_allPySpace _ hfallback
  have hext : extract_text resp = Except.error "OpenAI API returned no text output." := by
    simp only [extract_text]
    rw [h1]
    simp [h2]
  have hcall : ∀ apiKeyEnv modelEnv link_metas meals_per_week body,
      (call_openai_suggestions apiKeyEnv modelEnv link_metas
        meals_per_week resp).result ≠ Except.ok body := by
    intro apiKeyEnv modelEnv link_metas meals_per_week body
    simp only [call_openai_suggestions]
    by_cases hk : (pyStrip (apiKeyEnv.getD "") == "") = true
    · simp [hk]
    · by_cases hst : 400 ≤ resp.status
      · simp [hk, hst]
      · simp [hk, hst, hext]
  refine ⟨hext, hcall, ?_⟩
  intro env fileLines fetch smtpOk
  simp only [mainRun]
  by_cases hurls : (load_recipe_urls fileLines env.INCLUDE_SWEETS).isEmpty = true
  · simp [hurls]
  · simp only [hurls, Bool.false_eq_true, if_false]
    split
    · rfl
    · split
      · rfl
      next body hok => exact absurd hok (hcall _ _ _ _ body)

/-- C8 witness: a 200 response whose only text part is whitespace and
whose fallback field is a single space yields the empty-output error,
and a run over it opens no SMTP session even with full credentials. -/
theorem claim_c8_empty_output_witness :
    extract_text ⟨200, "", [⟨[⟨some "output_text", some "   "⟩]⟩], some " "⟩
      = Except.error "OpenAI API returned no text output."
    ∧ (mainRun ⟨some "key", none, some "user", some "pw", some "to",
          none, none, none, none, none, none⟩
        (some ["http://a.example/stew"]) (fun _ => FetchResult.fail)
        ⟨200, "", [⟨[⟨some "output_text", some "   "⟩]⟩], some " "⟩
        true).smtpAttempted = false := by
  have h := claim_c8_empty_output
    ⟨200, "", [⟨[⟨some "output_text", some "   "⟩]⟩], some " "⟩
    (by decide) (by decide)
  exact ⟨h.1, h.2.2 _ _ _ _⟩

/-- C9: when the filtered, deduplicated URL list is empty, `main`
prints the guidance message and returns exit code 2 with zero title
fetches, no LLM call and no SMTP session; when every stage succeeds
(some URL survives, `MEALS_PER_WEEK` parses, the LLM call returns text
and the email is delivered), `main` returns exit code 0. -/
theorem claim_c9_exit_codes (env : Env) (fileLines : Option (List String))
    (fetch : String → FetchResult) (resp : ApiResponse) (smtpOk : Bool) :
    (load_recipe_urls fileLines env.INCLUDE_SWEETS = [] →
      mainRun env fileLines fetch resp smtpOk
        = ⟨Except.ok 2, true, 0, false, false⟩)
    ∧ (∀ meals_per_week body,
        load_recipe_urls fileLines env.INCLUDE_SWEETS ≠ [] →
        pyInt (pyStrip (env.MEALS_PER_WEEK.getD "7")) = Except.ok meals_per_week →
        (call_openai_suggestions env.OPENAI_API_KEY env.OPENAI_MODEL
          (build_link_metas (load_recipe_urls fileLines env.INCLUDE_SWEETS) fetch 60)
          meals_per_week resp).result = Except.ok body →
        (send_email env.EMAIL_USER env.EMAIL_PASS env.EMAIL_TO env.SMTP_PORT
          smtpOk body).result = Except.ok () →
        (mainRun env fileLines fetch resp smtpOk).exit = Except.ok 0) := by
  constructor
  · intro hempty
    simp only [mainRun]
    rw [if_pos (by simp [hempty])]
  · intro meals_per_week body hne hmeals hcall hmail
    simp only [mainRun]
    rw [if_neg (by simp [hne])]
    simp only [hmeals, hcall, hmail]

/-- C9 witness: an empty recipes file gives exit 2 with no network
activity; a fully configured run over one URL with a textual LLM
response and a working SMTP session gives exit 0. -/
theorem claim_c9_exit_codes_witness :
    mainRun ⟨none, none, none, none, none, none, none, none, none, none, none⟩
        (some []) (fun _ => FetchResult.fail) ⟨200, "", [], none⟩ true
      = ⟨Except.ok 2, true, 0, false, false⟩
    ∧ (mainRun ⟨some "key", none, some "user", some "pw", some "to",
          none, none, none, none, none, none⟩
        (some ["http://a.example/stew"]) (fun _ => FetchResult.fail)
        ⟨200, "", [⟨[⟨some "output_text", some "Dinner: stew"⟩]⟩], none⟩
        true).exit = Except.ok 0 := by
  constructor
  · exact (claim_c9_exit_codes _ _ _ _ _).1 rfl
  · exact (claim_c9_exit_codes _ _ _ _ _).2 7 "Dinner: stew" (by decide) rfl rfl rfl
